import Mathlib

/-!
Verification of the ESP32MiniBTSpeaker firmware core: the debounced button
state machine of `src/include/Button.hpp` (short-press / long-press
disambiguation on top of the `Bounce2` debounce filter), the oversampling
battery gauge of `measureBattery` in `src/src/main.cpp`, the volume callbacks
`increaseVolume` / `decreaseVolume`, and the AVRC `metadataCallback`.

Time is modelled in whole milliseconds, with the control loop polling every
component once per millisecond tick.  Machine floats are idealised as exact
rationals (`ℚ`), with `NAN` rendered as the `Option.none` sentinel.
-/

set_option maxRecDepth 100000

namespace Speaker

/-- Debounced button state, mirroring the `Bounce2::Button` base state used by
`Button` in `src/include/Button.hpp`, together with invocation counters for
the two callbacks.  Booleans are in "pressed" polarity (the constructor calls
`setPressedState(LOW)`): `raw` is the debouncer's unstable state, `stable` the
debounced state, each `true` when the pin reads the pressed level.
`lastRawChange` is the time of the last raw-value change, `stableSince` the
time of the last stable-state transition, `prevDur` the duration of the stable
state that was last exited (`previousDuration()`), and `shortCount` /
`longCount` count the invocations of the `shortPress` / `longPress`
callbacks. -/
structure DB where
  raw : Bool
  lastRawChange : Nat
  stable : Bool
  stableSince : Nat
  prevDur : Nat
  shortCount : Nat
  longCount : Nat
  deriving DecidableEq, Repr

/-- Modelled from the spec: the per-tick debounce filter (`update()` of the
external `Bounce2` library, which is not part of this repository).  Spec §4.1
step 2: the externally observable stable state changes only if the raw value
has remained constant for at least the debounce interval `itv` milliseconds
since the last raw change, and the filter tracks the current stable-state
duration (via `stableSince`) and the previous stable-state duration
(`prevDur`).  `now` is the monotonic millisecond clock and `r` the raw
pressed level sampled this tick. -/
def debounceUpdate (itv now : Nat) (r : Bool) (s : DB) : DB :=
  if r ≠ s.raw then
    { s with raw := r, lastRawChange := now }
  else if itv ≤ now - s.lastRawChange ∧ r ≠ s.stable then
    { s with stable := r, prevDur := now - s.stableSince, stableSince := now }
  else
    s

/-- `Button::LONG_PRESS_DURATION` (src/include/Button.hpp line 9). -/
def LONG_PRESS_DURATION : Nat := 330

/-- One call of `Button::loop` (src/include/Button.hpp lines 24-35).
`update()` runs the debounce filter; then if `isPressed()`, the long-press
latch is clear and `currentDuration()` strictly exceeds
`LONG_PRESS_DURATION`, the latch is set and the long-press callback fires;
then if this tick observed a release transition (`released()`), the latch is
cleared and, if `previousDuration()` is strictly below
`LONG_PRESS_DURATION`, the short-press callback fires.  The latch is passed
in and out explicitly because in the source `long_press` is a function-local
`static bool`: a single variable shared by every `Button` instance. -/
def buttonLoopStep (itv now : Nat) (r : Bool) (s : DB) (latch : Bool) :
    DB × Bool :=
  let s1 := debounceUpdate itv now r s
  let fired := s1.stable && !latch && decide (LONG_PRESS_DURATION < now - s1.stableSince)
  let s2 := if fired then { s1 with longCount := s1.longCount + 1 } else s1
  if s.stable && !s1.stable then
    (if s2.prevDur < LONG_PRESS_DURATION then
       { s2 with shortCount := s2.shortCount + 1 }
     else s2,
     false)
  else
    (s2, latch || fired)

/-- A `Button` together with the long-press latch: faithful to a firmware run
in which only this one button is ever pressed (the `loop` of a button whose
raw signal stays released never touches the shared latch, see
`buttonLoopStep_idle`). -/
structure Btn where
  db : DB
  latch : Bool
  deriving DecidableEq, Repr

/-- Initial debouncer state: released, all clocks and counters at zero
(spec §4.1: initial state `released_stable`). -/
def initDB : DB := ⟨false, 0, false, 0, 0, 0, 0⟩

def initBtn : Btn := ⟨initDB, false⟩

def btnStep (itv now : Nat) (r : Bool) (s : Btn) : Btn :=
  let p := buttonLoopStep itv now r s.db s.latch
  ⟨p.1, p.2⟩

/-- State of a single button after its `loop` has processed the `k`
millisecond ticks `a, a + 1, …, a + k - 1` of the raw pressed signal `sig`,
starting from state `s`. -/
def runFrom (itv : Nat) (sig : Nat → Bool) (a : Nat) (s : Btn) : Nat → Btn
  | 0 => s
  | k + 1 => btnStep itv (a + k) (sig (a + k)) (runFrom itv sig a s k)

/-- State of a single button after its `loop` has processed ticks
`0, 1, …, t` (one per millisecond) of the raw pressed signal `sig`. -/
def runBtn (itv : Nat) (sig : Nat → Bool) (t : Nat) : Btn :=
  runFrom itv sig 0 initBtn (t + 1)

/-- The three `Button` instances `left`, `right`, `center` of
src/src/main.cpp lines 49-51, plus the single shared `static bool long_press`
of `Button::loop`. -/
structure MainState where
  left : DB
  right : DB
  center : DB
  latch : Bool
  deriving DecidableEq, Repr

/-- One control-loop iteration restricted to the button part of `loop()`
(src/src/main.cpp lines 89-91): `left.loop(); right.loop(); center.loop();`,
all three sharing the one function-static latch, with the default
`interval_millis = 5` debounce interval of the `Button` constructor. -/
def mainLoopStep (now : Nat) (rL rR rC : Bool) (s : MainState) : MainState :=
  let l := buttonLoopStep 5 now rL s.left s.latch
  let r := buttonLoopStep 5 now rR s.right l.2
  let c := buttonLoopStep 5 now rC s.center r.2
  ⟨l.1, r.1, c.1, c.2⟩

def initMain : MainState := ⟨initDB, initDB, initDB, false⟩

/-- Control-loop state after the first `n` millisecond ticks
`0, 1, …, n - 1`, with raw pressed signals `sigL`, `sigR`, `sigC` for the
left, right and center buttons. -/
def runMain (sigL sigR sigC : Nat → Bool) : Nat → MainState
  | 0 => initMain
  | n + 1 => mainLoopStep n (sigL n) (sigR n) (sigC n) (runMain sigL sigR sigC n)

/-- Clean raw signal of one press/release cycle: pressed exactly during
`[0, d)`, so the raw (and, for `5 < d`, the stable) press duration is `d`. -/
def pressSig (d : Nat) : Nat → Bool := fun t => decide (t < d)

/-- Single press/release cycle of raw duration `d` with the default 5 ms
debounce interval used by main.cpp. -/
def runCycle (d : Nat) : Nat → Btn := runBtn 5 (pressSig d)

/-- Closed form of a single press/release cycle run from a quiescent released
state.  The cycle's raw press occupies `[a, a + d)`; the run starts at tick
`a` from the state `⟨⟨false, c₀, false, b₀, p₀, sc, lc⟩, false⟩`, and
`cycleFrom a d c₀ b₀ p₀ sc lc k` is the state after `k` ticks
(`a, …, a + k - 1`), valid for `6 ≤ d` and `k ≤ d + 6`
(`runFrom_cycle` below): the stable press lasts from tick `a + 5` to tick
`a + d + 5` (both edges delayed by the 5 ms debounce settle), the long-press
fires at tick `a + 336`, when the stable duration first strictly exceeds
330 ms (reachable only if `332 ≤ d`), and the short-press fires at the
release tick `a + d + 5` iff the stable press duration `d` is strictly below
330 ms. -/
def cycleFrom (a d c₀ b₀ p₀ sc lc : Nat) : Nat → Btn
  | 0 => ⟨⟨false, c₀, false, b₀, p₀, sc, lc⟩, false⟩
  | k + 1 =>
    ⟨⟨decide (k < d),
      if k < d then a else a + d,
      decide (5 ≤ k ∧ k < d + 5),
      if k < 5 then b₀ else if k < d + 5 then a + 5 else a + d + 5,
      if k < 5 then p₀ else if k < d + 5 then a + 5 - b₀ else d,
      sc + (if d + 5 ≤ k ∧ d < 330 then 1 else 0),
      lc + (if 336 ≤ k ∧ 332 ≤ d then 1 else 0)⟩,
     decide (336 ≤ k ∧ k < d + 5)⟩

/-- Failing scenario, left button: raw pressed during `[0, 500)`. -/
def sigLeft : Nat → Bool := fun t => decide (t < 500)

/-- Failing scenario, right button: raw pressed during `[0, 400)`. -/
def sigRight : Nat → Bool := fun t => decide (t < 400)

/-- Failing scenario, center button: never pressed. -/
def sigCenter : Nat → Bool := fun _ => false

/-- Closed form of the firmware control-loop run on the failing scenario
(`runMain_closed`): because the long-press latch is one `static bool` shared
by all `Button` instances, the left button's long-press at tick 336 sets the
latch and thereby suppresses the right button's long-press entirely; the
right button's release at tick 405 then clears the shared latch while the
left button is still held, so the left button's long-press fires a second
time at tick 406, within one and the same press/release cycle. -/
def mainFun : Nat → MainState
  | 0 => initMain
  | j + 1 =>
    ⟨⟨decide (j < 500), if j < 500 then 0 else 500,
      decide (5 ≤ j ∧ j < 505),
      if j < 5 then 0 else if j < 505 then 5 else 505,
      if j < 5 then 0 else if j < 505 then 5 else 500,
      0,
      if 406 ≤ j then 2 else if 336 ≤ j then 1 else 0⟩,
     ⟨decide (j < 400), if j < 400 then 0 else 400,
      decide (5 ≤ j ∧ j < 405),
      if j < 5 then 0 else if j < 405 then 5 else 405,
      if j < 5 then 0 else if j < 405 then 5 else 400,
      0, 0⟩,
     initDB,
     decide ((336 ≤ j ∧ j < 405) ∨ (406 ≤ j ∧ j < 505))⟩

/-- Two clean press/release cycles of one button, separated by an idle gap:
raw pressed during `[0, d₁)` and again during `[d₁ + g, d₁ + g + d₂)`. -/
def twoPressSig (d₁ g d₂ : Nat) : Nat → Bool := fun t =>
  decide (t < d₁) || decide (d₁ + g ≤ t ∧ t < d₁ + g + d₂)

/-- Spec §8 P1 premise: the raw signal oscillates with period strictly below
`itv`, i.e. it is never constant over any window of `itv` milliseconds. -/
def oscillates (itv : Nat) (sig : Nat → Bool) : Prop :=
  ∀ u t, u ≤ t → (∀ v, u ≤ v → v ≤ t → sig v = sig u) → t - u < itv

/-- The oversampling battery gauge state of `measureBattery`
(src/src/main.cpp lines 112-126): the static ring buffer `samples[N]`, the
static write index `i`, and the global `batteryVoltage` (line 28).  Machine
floats are idealised as exact rationals; the `NAN` sentinel that
`batteryVoltage` is initialised to is rendered as `Option.none`. -/
structure GaugeState where
  samples : List ℚ
  i : Nat
  batteryVoltage : Option ℚ
  deriving DecidableEq, Repr

/-- Initial gauge state: `samples` zero-initialised
(`static uint32_t samples[N]{}`), `i = 0`, and
`float batteryVoltage = NAN` (main.cpp line 28). -/
def initGauge (N : Nat) : GaugeState := ⟨List.replicate N 0, 0, none⟩

/-- The voltage-divider factor `6.9f / (22.0f + 6.9f)` of measureBattery
(main.cpp line 113), idealised as an exact rational. -/
def factor : ℚ := 6.9 / (22.0 + 6.9)

/-- One call of `measureBattery` (main.cpp lines 112-126) with capacity `N`
and divider factor `f`, ingesting the raw millivolt reading `sample`
(`analogReadMilliVolts`): `samples[i] = sample; if (++i == N) { i = 0;`
sum the buffer and set `batteryVoltage = sum / N / factor / 1000.0f; }`. -/
def measureBattery (N : Nat) (f : ℚ) (sample : ℚ) (s : GaugeState) :
    GaugeState :=
  let samples := s.samples.set s.i sample
  if s.i + 1 = N then
    ⟨samples, 0, some (samples.sum / (N : ℚ) / f / 1000)⟩
  else
    ⟨samples, s.i + 1, s.batteryVoltage⟩

/-- Feeding a list of raw samples to the gauge, one per control-loop tick. -/
def ingest (N : Nat) (f : ℚ) : List ℚ → GaugeState → GaugeState
  | [], s => s
  | x :: xs, s => ingest N f xs (measureBattery N f x s)

/-- `increaseVolume` (main.cpp lines 165-170):
`uint8_t volume = static_cast<uint8_t>(bt.get_volume()) + 4;` then
`bt.set_volume(volume); meta.volume = volume;`.  `cur` is the `int` value
returned by `bt.get_volume()`; the C++ conversion to `uint8_t` is reduction
modulo 256, and the assignment of the `int` sum back into the `uint8_t`
variable reduces modulo 256 again. -/
def increaseVolume (cur : Int) : Int := (cur % 256 + 4) % 256

/-- `decreaseVolume` (main.cpp lines 177-182):
`uint8_t volume = static_cast<uint8_t>(bt.get_volume()) - 4;` then
`bt.set_volume(volume); meta.volume = volume;`. -/
def decreaseVolume (cur : Int) : Int := (cur % 256 - 4) % 256

/-- The global `meta` record of main.cpp lines 29-37.  `playing` abstracts
the `esp_avrc_playback_stat_t` enumeration value. -/
structure Meta where
  playing : Nat
  title : String
  artist : String
  album : String
  playtime : Nat
  position : Nat
  volume : Nat
  deriving DecidableEq, Repr

/-- AVRC metadata attribute ids of the external esp-idf header
(`esp_avrc_api.h`), as used by `metadataCallback`. -/
def ESP_AVRC_MD_ATTR_TITLE : Nat := 1

def ESP_AVRC_MD_ATTR_ARTIST : Nat := 2

def ESP_AVRC_MD_ATTR_ALBUM : Nat := 4

def ESP_AVRC_MD_ATTR_PLAYING_TIME : Nat := 64

/-- Decimal digit prefix accumulator for `strtol10`. -/
def digitsVal : List Char → Nat → Nat
  | c :: cs, acc =>
    if c.isDigit then digitsVal cs (acc * 10 + (c.toNat - 48)) else acc
  | [], acc => acc

/-- The libc `strtol(string, nullptr, 10)` call of `metadataCallback`
(main.cpp line 141), external to this repository: skip leading whitespace,
read an optional sign and a decimal digit prefix, yielding 0 when no digits
are present. -/
def strtol10 (s : String) : Int :=
  let cs := s.toList.dropWhile fun c =>
    c = ' ' ∨ c = '\t' ∨ c = '\n' ∨ c = '\r'
  match cs with
  | '-' :: rest => - (digitsVal rest 0 : Int)
  | '+' :: rest => (digitsVal rest 0 : Int)
  | rest => (digitsVal rest 0 : Int)

/-- `metadataCallback` (main.cpp lines 128-146): a switch on the attribute
id updating exactly one field of `meta` — `title`, `artist`, `album`, or
`playtime` (the latter parsed with `strtol` and stored into the `uint32_t`
field, hence reduced modulo `2^32`) — and doing nothing for any other id. -/
def metadataCallback (id : Nat) (data : String) (m : Meta) : Meta :=
  if id = ESP_AVRC_MD_ATTR_TITLE then { m with title := data }
  else if id = ESP_AVRC_MD_ATTR_ARTIST then { m with artist := data }
  else if id = ESP_AVRC_MD_ATTR_ALBUM then { m with album := data }
  else if id = ESP_AVRC_MD_ATTR_PLAYING_TIME then
    { m with playtime := (strtol10 data % 4294967296).toNat }
  else m


theorem cycleFrom_step (a d c₀ b₀ p₀ sc lc : Nat) (sig : Nat → Bool)
    (hd : 6 ≤ d)
    (hsig : ∀ t, a ≤ t → t ≤ a + d + 5 → sig t = decide (t < a + d)) :
    ∀ k, k ≤ d + 5 →
      btnStep 5 (a + k) (sig (a + k)) (cycleFrom a d c₀ b₀ p₀ sc lc k) =
        cycleFrom a d c₀ b₀ p₀ sc lc (k + 1) := by
  intro k hk
  rcases k with _ | j
  · have hs0 : sig a = true := by
      rw [hsig a (by omega) (by omega)]
      simp only [decide_eq_true_eq]
      omega
    have hd0 : 0 < d := by omega
    simp [cycleFrom, btnStep, buttonLoopStep, debounceUpdate, hs0,
      LONG_PRESS_DURATION, hd0, Nat.add_zero]
  · have hs : sig (a + (j + 1)) = decide (j + 1 < d) := by
      rw [hsig (a + (j + 1)) (by omega) (by omega)]
      simp only [decide_eq_decide]
      omega
    rcases Nat.lt_or_ge j 4 with hA | hA
    · -- settle phase: j ≤ 3, raw held pressed, debounce timer below 5
      have f1 : j < d := by omega
      have f2 : j + 1 < d := by omega
      have f3 : j < 5 := by omega
      have f4 : j + 1 < 5 := by omega
      have f5 : ¬ 5 ≤ j := by omega
      have f6 : ¬ 5 ≤ j + 1 := by omega
      have f7 : ¬ d + 5 ≤ j := by omega
      have f8 : ¬ d + 5 ≤ j + 1 := by omega
      have f9 : ¬ 336 ≤ j := by omega
      have f10 : ¬ 336 ≤ j + 1 := by omega
      have g1 : ¬ d ≤ j := by omega
      have g2 : ¬ d ≤ j + 1 := by omega
      simp [cycleFrom, btnStep, buttonLoopStep, debounceUpdate, hs,
        LONG_PRESS_DURATION, f1, f2, f3, f4, f5, f6, f7, f8, f9, f10, g1, g2]
    · rcases Nat.eq_or_lt_of_le hA with hB | hB
      · -- press edge: j = 4, stable state switches to pressed at tick a + 5
        have hj : j = 4 := by omega
        subst hj
        have f1 : (4 : Nat) < d := by omega
        have f2 : 4 + 1 < d := by omega
        have f3 : (5 : Nat) < d + 5 := by omega
        have f4 : ¬ d + 5 ≤ 4 + 1 := by omega
        have g1 : ¬ d ≤ 4 := by omega
        have g2 : ¬ d ≤ 5 := by omega
        have g3 : ¬ d ≤ 4 + 1 := by omega
        simp [cycleFrom, btnStep, buttonLoopStep, debounceUpdate, hs,
          LONG_PRESS_DURATION, f1, f2, f3, f4, g1, g2, g3]
      · -- j ≥ 5
        have hj5 : 5 ≤ j := by omega
        have hh1 : ¬ j < 5 := by omega
        have hh2 : ¬ j + 1 < 5 := by omega
        rcases lt_trichotomy (j + 1) d with hC | hC | hC
        · -- steady press, raw still held
          have f1 : j < d := by omega
          have f2 : j < d + 5 := by omega
          have f3 : j + 1 < d + 5 := by omega
          have f4 : 5 ≤ j + 1 := by omega
          have f5 : ¬ d + 5 ≤ j := by omega
          have f6 : ¬ d + 5 ≤ j + 1 := by omega
          have e1 : a + (j + 1) - (a + 5) = j - 4 := by omega
          rcases Nat.lt_or_ge j 335 with hD | hD
          · -- below the long-press threshold: nothing fires
            have f7 : ¬ 336 ≤ j := by omega
            have f8 : ¬ 336 ≤ j + 1 := by omega
            have f9 : ¬ 330 < j - 4 := by omega
            have g1 : ¬ d ≤ j := by omega
            have g2 : ¬ d ≤ j + 1 := by omega
            simp [cycleFrom, btnStep, buttonLoopStep, debounceUpdate, hs,
              LONG_PRESS_DURATION, f1, f2, f3, f4, f5, f6, f7, f8, f9, e1, hj5, hh1, hh2,
              g1, g2, hC]
          · rcases Nat.eq_or_lt_of_le hD with hE | hE
            · -- j = 335: the long-press fires at tick a + 336
              have hj : j = 335 := by omega
              subst hj
              have f7 : (332 : Nat) ≤ d := by omega
              have e2 : a + (335 + 1) - (a + 5) = 331 := by omega
              have g1 : ¬ d ≤ 335 := by omega
              have g2 : ¬ d ≤ 336 := by omega
              have g3 : ¬ d ≤ 335 + 1 := by omega
              have g4 : 336 < d := by omega
              have g5 : 335 + 1 < d := by omega
              simp [cycleFrom, btnStep, buttonLoopStep, debounceUpdate, hs,
                LONG_PRESS_DURATION, f1, f2, f3, f5, f6, f7, e2, g1, g2, g3,
                g4, g5]
            · -- j ≥ 336: latch already set, no further fire
              have f7 : 336 ≤ j := by omega
              have f8 : 336 ≤ j + 1 := by omega
              have f9 : 332 ≤ d := by omega
              have g1 : ¬ d ≤ j := by omega
              have g2 : ¬ d ≤ j + 1 := by omega
              simp [cycleFrom, btnStep, buttonLoopStep, debounceUpdate, hs,
                LONG_PRESS_DURATION, f1, f2, f3, f4, f5, f6, f7, f8, f9, hj5, hh1, hh2,
                g1, g2, hC]
        · -- raw release edge: j + 1 = d, the raw value drops
          have f1 : j < d := by omega
          have f2 : ¬ j + 1 < d := by omega
          have f3 : j < d + 5 := by omega
          have f4 : j + 1 < d + 5 := by omega
          have f5 : 5 ≤ j + 1 := by omega
          have f6 : ¬ d + 5 ≤ j := by omega
          have f7 : ¬ d + 5 ≤ j + 1 := by omega
          have e1 : a + (j + 1) = a + d := by omega
          have e2 : a + (j + 1) - (a + 5) = j - 4 := by omega
          have hsF : sig (a + d) = false := by
            rw [← e1, hs]
            simp only [decide_eq_false_iff_not]
            omega
          rcases Nat.lt_or_ge j 335 with hD | hD
          · -- d ≤ 335: no fire possible yet
            have f8 : ¬ 336 ≤ j := by omega
            have f9 : ¬ 336 ≤ j + 1 := by omega
            have f10 : ¬ 330 < j - 4 := by omega
            have g1 : ¬ d ≤ j := by omega
            have g2 : d ≤ j + 1 := by omega
            simp [cycleFrom, btnStep, buttonLoopStep, debounceUpdate, hs,
              LONG_PRESS_DURATION, f1, f2, f3, f4, f5, f6, f7, f8, f9, f10, e1,
              e2, hj5, hh1, hh2, g1, g2, hsF]
            omega
          · rcases Nat.eq_or_lt_of_le hD with hE | hE
            · -- j = 335, d = 336: fire on the very tick the raw drops
              have hj : j = 335 := by omega
              subst hj
              have f8 : (332 : Nat) ≤ d := by omega
              have e3 : a + (335 + 1) - (a + 5) = 331 := by omega
              have g1 : ¬ d ≤ 335 := by omega
              have g2 : d ≤ 335 + 1 := by omega
              have g3 : d ≤ 336 := by omega
              have g4 : ¬ 336 < d := by omega
              have g5 : ¬ 335 + 1 < d := by omega
              simp [cycleFrom, btnStep, buttonLoopStep, debounceUpdate, hs,
                LONG_PRESS_DURATION, f1, f2, f3, f4, f6, f7, f8, e1, e3, g1,
                g2, g3, g4, g5, hsF]
              omega
            · -- d ≥ 337: latch already set
              have f8 : 336 ≤ j := by omega
              have f9 : 336 ≤ j + 1 := by omega
              have f10 : 332 ≤ d := by omega
              have g1 : ¬ d ≤ j := by omega
              have g2 : d ≤ j + 1 := by omega
              simp [cycleFrom, btnStep, buttonLoopStep, debounceUpdate, hs,
                LONG_PRESS_DURATION, f1, f2, f3, f4, f5, f6, f7, f8, f9, f10,
                e1, hj5, hh1, hh2, g1, g2, hsF]
        · -- raw already released: d ≤ j ≤ d + 4
          have hjd : d ≤ j := by omega
          have f1 : ¬ j < d := by omega
          have f2 : ¬ j + 1 < d := by omega
          have e1 : a + (j + 1) - (a + d) = j + 1 - d := by omega
          rcases Nat.lt_or_ge j (d + 4) with hH | hH
          · -- debounce timer on the released raw still below 5: stable press persists
            have f3 : j < d + 5 := by omega
            have f4 : j + 1 < d + 5 := by omega
            have f5 : ¬ 5 ≤ j + 1 - d := by omega
            have f6 : ¬ d + 5 ≤ j := by omega
            have f7 : ¬ d + 5 ≤ j + 1 := by omega
            have e2 : a + (j + 1) - (a + 5) = j - 4 := by omega
            rcases Nat.lt_or_ge j 335 with hD | hD
            · have f8 : ¬ 336 ≤ j := by omega
              have f9 : ¬ 336 ≤ j + 1 := by omega
              have f10 : ¬ 330 < j - 4 := by omega
              have g1 : d ≤ j := hjd
              have g2 : d ≤ j + 1 := by omega
              simp [cycleFrom, btnStep, buttonLoopStep, debounceUpdate, hs,
                LONG_PRESS_DURATION, f1, f2, f3, f4, f5, f6, f7, f8, f9, f10,
                e1, e2, hj5, hh1, hh2, g1, g2]
              omega
            · rcases Nat.eq_or_lt_of_le hD with hE | hE
              · -- j = 335 with d ∈ [332, 335]: fire during the settling tail
                have hj : j = 335 := by omega
                subst hj
                have f8 : (332 : Nat) ≤ d := by omega
                have e3 : a + (335 + 1) - (a + 5) = 331 := by omega
                have g1 : d ≤ 335 := by omega
                have g2 : d ≤ 335 + 1 := by omega
                have g3 : d ≤ 336 := by omega
                have g4 : ¬ 336 < d := by omega
                have g5 : ¬ 335 + 1 < d := by omega
                simp [cycleFrom, btnStep, buttonLoopStep, debounceUpdate, hs,
                  LONG_PRESS_DURATION, f1, f2, f3, f4, f5, f6, f7, f8, e1, e3,
                  g1, g2, g3, g4, g5]
              · have f8 : 336 ≤ j := by omega
                have f9 : 336 ≤ j + 1 := by omega
                have f10 : 332 ≤ d := by omega
                have g1 : d ≤ j := hjd
                have g2 : d ≤ j + 1 := by omega
                simp [cycleFrom, btnStep, buttonLoopStep, debounceUpdate, hs,
                  LONG_PRESS_DURATION, f1, f2, f3, f4, f5, f6, f7, f8, f9, f10,
                  e1, hj5, hh1, hh2, g1, g2]
                omega
          · -- j = d + 4: stable release transition at tick a + d + 5
            have hj : j = d + 4 := by omega
            have f3 : j < d + 5 := by omega
            have f4 : ¬ j + 1 < d + 5 := by omega
            have f5 : 5 ≤ j + 1 - d := by omega
            have f6 : ¬ d + 5 ≤ j := by omega
            have f7 : d + 5 ≤ j + 1 := by omega
            have e2 : a + (j + 1) - (a + 5) = d := by omega
            have e3 : a + (j + 1) = a + d + 5 := by omega
            have hsH : sig (a + d + 5) = false := by
              rw [← e3, hs]
              simp only [decide_eq_false_iff_not]
              omega
            rcases Nat.lt_or_ge d 330 with hD | hD
            · -- short press fires at release
              have f8 : d < 330 := hD
              have f9 : ¬ 336 ≤ j := by omega
              have f10 : ¬ 336 ≤ j + 1 := by omega
              have f11 : ¬ 332 ≤ d := by omega
              have g1 : d ≤ j := hjd
              have g2 : d ≤ j + 1 := by omega
              simp [cycleFrom, btnStep, buttonLoopStep, debounceUpdate, hs,
                LONG_PRESS_DURATION, f1, f2, f3, f4, f5, f6, f7, f8, f9, f10,
                f11, e1, e2, e3, hj5, hh1, hh2, g1, g2, hsH]
            · rcases Nat.lt_or_ge d 332 with hE | hE
              · -- d ∈ {330, 331}: neither callback fires
                have f8 : ¬ d < 330 := by omega
                have f9 : ¬ 336 ≤ j := by omega
                have f11 : ¬ 332 ≤ d := by omega
                have g1 : d ≤ j := hjd
                have g2 : d ≤ j + 1 := by omega
                simp [cycleFrom, btnStep, buttonLoopStep, debounceUpdate, hs,
                  LONG_PRESS_DURATION, f1, f2, f3, f4, f5, f6, f7, f8, f9,
                  f11, e1, e2, e3, hj5, hh1, hh2, g1, g2, hsH]
              · -- d ≥ 332: the long-press fired earlier, release is silent
                have f8 : ¬ d < 330 := by omega
                have f9 : 336 ≤ j := by omega
                have f10 : 336 ≤ j + 1 := by omega
                have f11 : 332 ≤ d := by omega
                have g1 : d ≤ j := hjd
                have g2 : d ≤ j + 1 := by omega
                simp [cycleFrom, btnStep, buttonLoopStep, debounceUpdate, hs,
                  LONG_PRESS_DURATION, f1, f2, f3, f4, f5, f6, f7, f8, f9, f10,
                  f11, e1, e2, e3, hj5, hh1, hh2, g1, g2, hsH]

/-- A full press/release cycle run from a quiescent released state follows
the closed form `cycleFrom`. -/
theorem runFrom_cycle (a d c₀ b₀ p₀ sc lc : Nat) (sig : Nat → Bool)
    (hd : 6 ≤ d)
    (hsig : ∀ t, a ≤ t → t ≤ a + d + 5 → sig t = decide (t < a + d)) :
    ∀ k, k ≤ d + 6 →
      runFrom 5 sig a ⟨⟨false, c₀, false, b₀, p₀, sc, lc⟩, false⟩ k =
        cycleFrom a d c₀ b₀ p₀ sc lc k := by
  intro k
  induction k with
  | zero => intro _; rfl
  | succ n ih =>
    intro hn
    rw [runFrom, ih (by omega)]
    exact cycleFrom_step a d c₀ b₀ p₀ sc lc sig hd hsig n (by omega)

/-- A `Button::loop` call on a button whose raw signal reads released and
whose stable state is released changes nothing: neither the button state nor
the shared latch. -/
theorem buttonLoopStep_idle (itv now : Nat) (s : DB) (latch : Bool)
    (h1 : s.raw = false) (h2 : s.stable = false) :
    buttonLoopStep itv now false s latch = (s, latch) := by
  obtain ⟨rw, u, st, ss, pd, c1, c2⟩ := s
  simp only at h1 h2
  subst h1 h2
  simp [buttonLoopStep, debounceUpdate]

/-- `btnStep` version of `buttonLoopStep_idle`. -/
theorem btnStep_idle (itv now : Nat) (s : Btn)
    (h1 : s.db.raw = false) (h2 : s.db.stable = false) :
    btnStep itv now false s = s := by
  obtain ⟨db, l⟩ := s
  simp only [btnStep, buttonLoopStep_idle itv now db l h1 h2]

/-- Runs over a released raw signal leave a quiescent released state
unchanged. -/
theorem runFrom_idle (itv : Nat) (sig : Nat → Bool) (a : Nat) (s : Btn)
    (h1 : s.db.raw = false) (h2 : s.db.stable = false) :
    ∀ k, (∀ t, a ≤ t → t < a + k → sig t = false) →
      runFrom itv sig a s k = s := by
  intro k
  induction k with
  | zero => intro _; rfl
  | succ n ih =>
    intro hsig
    rw [runFrom, ih (fun t ht ht2 => hsig t ht (by omega)),
      hsig (a + n) (by omega) (by omega), btnStep_idle itv (a + n) s h1 h2]

/-- Splitting a run into two consecutive runs. -/
theorem runFrom_append (itv : Nat) (sig : Nat → Bool) (a : Nat) (s : Btn)
    (m : Nat) :
    ∀ n, runFrom itv sig a s (m + n) =
      runFrom itv sig (a + m) (runFrom itv sig a s m) n := by
  intro n
  induction n with
  | zero => rfl
  | succ n ih =>
    show runFrom itv sig a s (m + n + 1) = _
    rw [runFrom, ih, runFrom, show a + (m + n) = a + m + n from by omega]

/-- The single-cycle run in the closed form, phrased on `runCycle`. -/
theorem runCycle_closed (d : Nat) (hd : 6 ≤ d) :
    ∀ t, t ≤ d + 5 → runCycle d t = cycleFrom 0 d 0 0 0 0 0 (t + 1) := by
  intro t ht
  show runFrom 5 (pressSig d) 0 initBtn (t + 1) = _
  exact runFrom_cycle 0 d 0 0 0 0 0 (pressSig d) hd
    (fun u _ _ => by simp [pressSig]) (t + 1) (by omega)

/-- After the release tick `d + 5` the cycle state never changes again. -/
theorem runCycle_persist (d : Nat) (hd : 6 ≤ d) :
    ∀ t, d + 5 ≤ t → runCycle d t = runCycle d (d + 5) := by
  intro t ht
  have hq : runFrom 5 (pressSig d) 0 initBtn (d + 6) =
      cycleFrom 0 d 0 0 0 0 0 (d + 6) :=
    runFrom_cycle 0 d 0 0 0 0 0 (pressSig d) hd
      (fun u _ _ => by simp [pressSig]) (d + 6) (by omega)
  have hraw : (cycleFrom 0 d 0 0 0 0 0 (d + 6)).db.raw = false := by
    rw [show d + 6 = (d + 5) + 1 by omega]
    simp [cycleFrom]
  have hstable : (cycleFrom 0 d 0 0 0 0 0 (d + 6)).db.stable = false := by
    rw [show d + 6 = (d + 5) + 1 by omega]
    simp [cycleFrom]
  have hrhs : runCycle d (d + 5) = cycleFrom 0 d 0 0 0 0 0 (d + 6) := by
    rw [runCycle_closed d hd (d + 5) le_rfl]
  show runFrom 5 (pressSig d) 0 initBtn (t + 1) = _
  rw [show t + 1 = (d + 6) + (t - d - 5) by omega, runFrom_append, hq, hrhs]
  exact runFrom_idle 5 (pressSig d) (0 + (d + 6)) _ hraw hstable (t - d - 5)
    (fun u hu _ => by simp only [pressSig, decide_eq_false_iff_not]; omega)

theorem mainFun_step :
    ∀ k, k ≤ 604 →
      mainLoopStep k (sigLeft k) (sigRight k) (sigCenter k) (mainFun k) =
        mainFun (k + 1) := by
  intro k hk
  rcases k with _ | j
  · simp [mainFun, initMain, initDB, mainLoopStep, buttonLoopStep,
      debounceUpdate, LONG_PRESS_DURATION, sigLeft, sigRight, sigCenter]
  · rcases Nat.lt_or_ge j 4 with hA | hA
    · -- settle phase: j ≤ 3
      have f1 : j < 500 := by omega
      have f2 : j + 1 < 500 := by omega
      have f3 : j < 5 := by omega
      have f4 : j + 1 < 5 := by omega
      have f5 : ¬ 5 ≤ j := by omega
      have f6 : ¬ 5 ≤ j + 1 := by omega
      have f7 : j < 400 := by omega
      have f8 : j + 1 < 400 := by omega
      have f9 : ¬ 336 ≤ j := by omega
      have f10 : ¬ 336 ≤ j + 1 := by omega
      have f11 : ¬ 406 ≤ j := by omega
      have f12 : ¬ 406 ≤ j + 1 := by omega
      simp [mainFun, mainLoopStep, buttonLoopStep, debounceUpdate, initDB,
        LONG_PRESS_DURATION, sigLeft, sigRight, sigCenter, f1, f2, f3, f4, f5,
        f6, f7, f8, f9, f10, f11, f12]
    · rcases Nat.eq_or_lt_of_le hA with hB | hB
      · -- press edge: j = 4
        have hj : j = 4 := by omega
        subst hj
        simp [mainFun, mainLoopStep, buttonLoopStep, debounceUpdate, initDB,
          LONG_PRESS_DURATION, sigLeft, sigRight, sigCenter]
      · have hj5 : 5 ≤ j := by omega
        have hh1 : ¬ j < 5 := by omega
        have hh2 : ¬ j + 1 < 5 := by omega
        rcases Nat.lt_or_ge j 335 with hC | hC
        · -- steady press before the threshold: 5 ≤ j ≤ 334
          have f1 : j < 500 := by omega
          have f2 : j + 1 < 500 := by omega
          have f3 : j < 400 := by omega
          have f4 : j + 1 < 400 := by omega
          have f5 : j < 505 := by omega
          have f6 : j + 1 < 505 := by omega
          have f7 : j < 405 := by omega
          have f8 : j + 1 < 405 := by omega
          have f9 : ¬ 336 ≤ j := by omega
          have f10 : ¬ 336 ≤ j + 1 := by omega
          have f11 : ¬ 406 ≤ j := by omega
          have f12 : ¬ 406 ≤ j + 1 := by omega
          have f13 : ¬ 330 < j - 4 := by omega
          have f14 : 4 ≤ j := by omega
          simp [mainFun, mainLoopStep, buttonLoopStep, debounceUpdate, initDB,
            LONG_PRESS_DURATION, sigLeft, sigRight, sigCenter, hj5, hh1, hh2,
            f1, f2, f3, f4, f5, f6, f7, f8, f9, f10, f11, f12, f13, f14]
        · rcases Nat.eq_or_lt_of_le hC with hD | hD
          · -- j = 335: the left button's long-press fires at tick 336 and
            -- sets the shared latch; the right button is then suppressed
            have hj : j = 335 := by omega
            subst hj
            simp [mainFun, mainLoopStep, buttonLoopStep, debounceUpdate,
              initDB, LONG_PRESS_DURATION, sigLeft, sigRight, sigCenter]
          · rcases Nat.lt_or_ge j 399 with hE | hE
            · -- latched steady press: 336 ≤ j ≤ 398
              have f1 : j < 500 := by omega
              have f2 : j + 1 < 500 := by omega
              have f3 : j < 400 := by omega
              have f4 : j + 1 < 400 := by omega
              have f5 : j < 505 := by omega
              have f6 : j + 1 < 505 := by omega
              have f7 : j < 405 := by omega
              have f8 : j + 1 < 405 := by omega
              have f9 : 336 ≤ j := by omega
              have f10 : 336 ≤ j + 1 := by omega
              have f11 : ¬ 406 ≤ j := by omega
              have f12 : ¬ 406 ≤ j + 1 := by omega
              have f14 : 4 ≤ j := by omega
              simp [mainFun, mainLoopStep, buttonLoopStep, debounceUpdate,
                initDB, LONG_PRESS_DURATION, sigLeft, sigRight, sigCenter,
                hj5, hh1, hh2, f1, f2, f3, f4, f5, f6, f7, f8, f9, f10, f11,
                f12, f14]
            · rcases Nat.eq_or_lt_of_le hE with hF | hF
              · -- j = 399: the right button's raw input drops at tick 400
                have hj : j = 399 := by omega
                subst hj
                simp [mainFun, mainLoopStep, buttonLoopStep, debounceUpdate,
                  initDB, LONG_PRESS_DURATION, sigLeft, sigRight, sigCenter]
              · rcases Nat.lt_or_ge j 404 with hG | hG
                · -- right release settling: 400 ≤ j ≤ 403
                  have f1 : j < 500 := by omega
                  have f2 : j + 1 < 500 := by omega
                  have f3 : ¬ j < 400 := by omega
                  have f4 : ¬ j + 1 < 400 := by omega
                  have f5 : j < 505 := by omega
                  have f6 : j + 1 < 505 := by omega
                  have f7 : j < 405 := by omega
                  have f8 : j + 1 < 405 := by omega
                  have f9 : 336 ≤ j := by omega
                  have f10 : 336 ≤ j + 1 := by omega
                  have f11 : ¬ 406 ≤ j := by omega
                  have f12 : ¬ 406 ≤ j + 1 := by omega
                  have f13 : ¬ 5 ≤ j - 399 := by omega
                  have f14 : 4 ≤ j := by omega
                  simp [mainFun, mainLoopStep, buttonLoopStep, debounceUpdate,
                    initDB, LONG_PRESS_DURATION, sigLeft, sigRight, sigCenter,
                    hj5, hh1, hh2, f1, f2, f3, f4, f5, f6, f7, f8, f9, f10,
                    f11, f12, f13, f14]
                · rcases Nat.eq_or_lt_of_le hG with hH | hH
                  · -- j = 404: the right button's stable release at tick 405
                    -- resets the shared latch while the left is still held
                    have hj : j = 404 := by omega
                    subst hj
                    simp [mainFun, mainLoopStep, buttonLoopStep,
                      debounceUpdate, initDB, LONG_PRESS_DURATION, sigLeft,
                      sigRight, sigCenter]
                  · rcases Nat.lt_or_ge j 406 with hI | hI
                    · -- j = 405: the left button's long-press fires AGAIN at
                      -- tick 406, in the same press/release cycle
                      have hj : j = 405 := by omega
                      subst hj
                      simp [mainFun, mainLoopStep, buttonLoopStep,
                        debounceUpdate, initDB, LONG_PRESS_DURATION, sigLeft,
                        sigRight, sigCenter]
                    · rcases Nat.lt_or_ge j 499 with hJ | hJ
                      · -- relatched steady press: 406 ≤ j ≤ 498
                        have f1 : j < 500 := by omega
                        have f2 : j + 1 < 500 := by omega
                        have f3 : ¬ j < 400 := by omega
                        have f4 : ¬ j + 1 < 400 := by omega
                        have f5 : j < 505 := by omega
                        have f6 : j + 1 < 505 := by omega
                        have f7 : ¬ j < 405 := by omega
                        have f8 : ¬ j + 1 < 405 := by omega
                        have f9 : 336 ≤ j := by omega
                        have f10 : 336 ≤ j + 1 := by omega
                        have f11 : 406 ≤ j := by omega
                        have f12 : 406 ≤ j + 1 := by omega
                        have f14 : 4 ≤ j := by omega
                        simp [mainFun, mainLoopStep, buttonLoopStep,
                          debounceUpdate, initDB, LONG_PRESS_DURATION,
                          sigLeft, sigRight, sigCenter, hj5, hh1, hh2, f1, f2,
                          f3, f4, f5, f6, f7, f8, f9, f10, f11, f12, f14]
                      · rcases Nat.eq_or_lt_of_le hJ with hK | hK
                        · -- j = 499: the left button's raw input drops
                          have hj : j = 499 := by omega
                          subst hj
                          simp [mainFun, mainLoopStep, buttonLoopStep,
                            debounceUpdate, initDB, LONG_PRESS_DURATION,
                            sigLeft, sigRight, sigCenter]
                        · rcases Nat.lt_or_ge j 504 with hL | hL
                          · -- left release settling: 500 ≤ j ≤ 503
                            have f1 : ¬ j < 500 := by omega
                            have f2 : ¬ j + 1 < 500 := by omega
                            have f3 : ¬ j < 400 := by omega
                            have f4 : ¬ j + 1 < 400 := by omega
                            have f5 : j < 505 := by omega
                            have f6 : j + 1 < 505 := by omega
                            have f7 : ¬ j < 405 := by omega
                            have f8 : ¬ j + 1 < 405 := by omega
                            have f9 : 336 ≤ j := by omega
                            have f10 : 336 ≤ j + 1 := by omega
                            have f11 : 406 ≤ j := by omega
                            have f12 : 406 ≤ j + 1 := by omega
                            have f13 : ¬ 5 ≤ j - 499 := by omega
                            have f14 : 4 ≤ j := by omega
                            simp [mainFun, mainLoopStep, buttonLoopStep,
                              debounceUpdate, initDB, LONG_PRESS_DURATION,
                              sigLeft, sigRight, sigCenter, hj5, hh1, hh2, f1,
                              f2, f3, f4, f5, f6, f7, f8, f9, f10, f11, f12,
                              f13, f14]
                          · rcases Nat.eq_or_lt_of_le hL with hM | hM
                            · -- j = 504: left stable release at tick 505
                              have hj : j = 504 := by omega
                              subst hj
                              simp [mainFun, mainLoopStep, buttonLoopStep,
                                debounceUpdate, initDB, LONG_PRESS_DURATION,
                                sigLeft, sigRight, sigCenter]
                            · -- all quiescent: 505 ≤ j ≤ 603
                              have f1 : ¬ j < 500 := by omega
                              have f2 : ¬ j + 1 < 500 := by omega
                              have f3 : ¬ j < 400 := by omega
                              have f4 : ¬ j + 1 < 400 := by omega
                              have f5 : ¬ j < 505 := by omega
                              have f6 : ¬ j + 1 < 505 := by omega
                              have f7 : ¬ j < 405 := by omega
                              have f8 : ¬ j + 1 < 405 := by omega
                              have f9 : 336 ≤ j := by omega
                              have f10 : 336 ≤ j + 1 := by omega
                              have f11 : 406 ≤ j := by omega
                              have f12 : 406 ≤ j + 1 := by omega
                              have f14 : 4 ≤ j := by omega
                              simp [mainFun, mainLoopStep, buttonLoopStep,
                                debounceUpdate, initDB, LONG_PRESS_DURATION,
                                sigLeft, sigRight, sigCenter, hj5, hh1, hh2,
                                f1, f2, f3, f4, f5, f6, f7, f8, f9, f10, f11,
                                f12, f14]

/-- The run of the firmware control loop on the failing scenario follows the
closed form `mainFun`. -/
theorem runMain_closed :
    ∀ k, k ≤ 605 → runMain sigLeft sigRight sigCenter k = mainFun k := by
  intro k
  induction k with
  | zero => intro _; rfl
  | succ n ih =>
    intro hn
    rw [runMain, ih (by omega)]
    exact mainFun_step n (by omega)

/-- Callback counts along a single press/release cycle: the short-press count
becomes 1 exactly at the release tick `d + 5` and only for `d < 330`; the
long-press count becomes 1 exactly at tick `336` and only for `332 ≤ d`. -/
theorem runCycle_counts (d : Nat) (hd : 6 ≤ d) (t : Nat) (ht : t ≤ d + 5) :
    (runCycle d t).db.shortCount = (if d + 5 ≤ t ∧ d < 330 then 1 else 0) ∧
    (runCycle d t).db.longCount = (if 336 ≤ t ∧ 332 ≤ d then 1 else 0) := by
  rw [runCycle_closed d hd t ht]
  simp [cycleFrom]

/-- Invariant of a run over an oscillating raw signal: the stable state stays
released, no callback ever fires, the latch stays clear, and the debouncer
tracks the current constant run of the raw signal. -/
theorem osc_invariant (itv : Nat) (sig : Nat → Bool)
    (hosc : oscillates itv sig) :
    ∀ k,
      (runFrom itv sig 0 initBtn (k + 1)).db.stable = false ∧
      (runFrom itv sig 0 initBtn (k + 1)).latch = false ∧
      (runFrom itv sig 0 initBtn (k + 1)).db.shortCount = 0 ∧
      (runFrom itv sig 0 initBtn (k + 1)).db.longCount = 0 ∧
      (runFrom itv sig 0 initBtn (k + 1)).db.raw = sig k ∧
      (runFrom itv sig 0 initBtn (k + 1)).db.lastRawChange ≤ k ∧
      (∀ v, (runFrom itv sig 0 initBtn (k + 1)).db.lastRawChange ≤ v → v ≤ k →
        sig v = sig (runFrom itv sig 0 initBtn (k + 1)).db.lastRawChange) := by
  intro k
  induction k with
  | zero =>
    by_cases h0 : sig 0 = false
    · simp [runFrom, btnStep, buttonLoopStep, debounceUpdate, initBtn, initDB,
        h0]
    · rw [Bool.not_eq_false] at h0
      simp [runFrom, btnStep, buttonLoopStep, debounceUpdate, initBtn, initDB,
        h0]
  | succ k ih =>
    obtain ⟨ihst, ihla, ihsc, ihlc, ihraw, ihlrc, ihconst⟩ := ih
    have hunfold : runFrom itv sig 0 initBtn (k + 1 + 1) =
        btnStep itv (k + 1) (sig (k + 1)) (runFrom itv sig 0 initBtn (k + 1)) := by
      rw [runFrom, show 0 + (k + 1) = k + 1 from by omega]
    rw [hunfold]
    rcases hsv : runFrom itv sig 0 initBtn (k + 1) with ⟨⟨rw0, u, st, ss, pd, c1, c2⟩, la⟩
    rw [hsv] at ihst ihla ihsc ihlc ihraw ihlrc ihconst
    simp only at ihst ihla ihsc ihlc ihraw ihlrc ihconst
    subst ihst ihla ihsc ihlc ihraw
    by_cases he : sig (k + 1) = sig k
    · have hconst2 : ∀ v, u ≤ v → v ≤ k + 1 → sig v = sig u := by
        intro v hv1 hv2
        rcases Nat.lt_or_ge v (k + 1) with hv | hv
        · exact ihconst v hv1 (by omega)
        · rw [show v = k + 1 from by omega, he]
          exact ihconst k ihlrc le_rfl
      have htimer : ¬ itv ≤ k + 1 - u := by
        have := hosc u (k + 1) (by omega) hconst2
        omega
      simp [btnStep, buttonLoopStep, debounceUpdate, he, htimer]
      exact ⟨by omega, fun v hv1 hv2 => hconst2 v hv1 (by omega)⟩
    · simp [btnStep, buttonLoopStep, debounceUpdate, he]
      intro v hv1 hv2
      rw [show v = k + 1 from by omega]

/-- C7 — **confirmed**.  P1 (debounce suppresses noise): for any raw pin
signal that oscillates with period strictly less than the configured debounce
interval — i.e. never stays constant for a full `itv`-millisecond window —
the stable state never leaves its initial released value and neither the
short-press nor the long-press callback ever fires, over any polling
horizon. -/
theorem C7_debounce_suppresses_noise (itv : Nat) (sig : Nat → Bool)
    (hosc : oscillates itv sig) :
    ∀ T, (runBtn itv sig T).db.stable = false ∧
      (runBtn itv sig T).db.shortCount = 0 ∧
      (runBtn itv sig T).db.longCount = 0 := by
  intro T
  obtain ⟨h1, _, h3, h4, _⟩ := osc_invariant itv sig hosc T
  exact ⟨h1, h3, h4⟩

/-- Witness for `C7_debounce_suppresses_noise`: the raw signal alternating
every millisecond oscillates faster than the 5 ms debounce interval, and
after ten ticks of it the stable state is still released with no callback
fired. -/
theorem C7_debounce_suppresses_noise_witness :
    (runBtn 5 (fun t => decide (t % 2 = 0)) 9).db.stable = false ∧
    (runBtn 5 (fun t => decide (t % 2 = 0)) 9).db.shortCount = 0 ∧
    (runBtn 5 (fun t => decide (t % 2 = 0)) 9).db.longCount = 0 := by
  refine C7_debounce_suppresses_noise 5 (fun t => decide (t % 2 = 0)) ?_ 9
  intro u t hut hconst
  rcases Nat.lt_or_ge t (u + 1) with h | h
  · omega
  · exfalso
    have h1 := hconst (u + 1) (by omega) (by omega)
    simp only [decide_eq_decide] at h1
    omega


/-- Setting the element right after a prefix. -/
theorem set_length_append (pre : List ℚ) (x y : ℚ) (ys : List ℚ) :
    (pre ++ y :: ys).set pre.length x = pre ++ x :: ys := by
  induction pre with
  | nil => rfl
  | cons p ps ih => simp [List.set, ih]

/-- Feeding a concatenation of sample lists is feeding one after the other. -/
theorem ingest_append (N : Nat) (f : ℚ) :
    ∀ (xs ys : List ℚ) (s : GaugeState),
      ingest N f (xs ++ ys) s = ingest N f ys (ingest N f xs s) := by
  intro xs
  induction xs with
  | nil => intro ys s; rfl
  | cons x xs ih => intro ys s; exact ih ys (measureBattery N f x s)

/-- Ingesting strictly fewer samples than the remaining buffer space never
flushes: the buffer fills in place, the write index advances, and
`batteryVoltage` keeps its prior value. -/
theorem ingest_fill (N : Nat) (f : ℚ) :
    ∀ (xs pre suf : List ℚ) (v : Option ℚ),
      pre.length + suf.length = N → xs.length < suf.length →
      ingest N f xs ⟨pre ++ suf, pre.length, v⟩ =
        ⟨pre ++ xs ++ List.drop xs.length suf, pre.length + xs.length, v⟩ := by
  intro xs
  induction xs with
  | nil =>
    intro pre suf v h1 h2
    simp [ingest]
  | cons x xs ih =>
    intro pre suf v h1 h2
    rcases suf with _ | ⟨y, ys⟩
    · simp at h2
    · have hcond : ¬ (pre.length + 1 = N) := by
        simp only [List.length_cons] at h1 h2
        omega
      show ingest N f xs (measureBattery N f x ⟨pre ++ y :: ys, pre.length, v⟩) = _
      rw [show measureBattery N f x ⟨pre ++ y :: ys, pre.length, v⟩ =
            ⟨(pre ++ [x]) ++ ys, (pre ++ [x]).length, v⟩ from by
          simp [measureBattery, hcond, set_length_append]]
      rw [ih (pre ++ [x]) ys v (by simp at h1 ⊢; omega)
        (by simp at h2 ⊢; omega)]
      simp only [List.length_append, List.length_cons, List.length_nil,
        List.append_assoc, List.cons_append, List.nil_append,
        List.drop_succ_cons, GaugeState.mk.injEq, and_true, true_and]
      omega

/-- Ingesting exactly as many samples as the remaining buffer space flushes
on the last one: the write index wraps to zero and `batteryVoltage` becomes
the buffer sum divided by `N`, the factor and 1000, exactly as computed by
`measureBattery`. -/
theorem ingest_flush (N : Nat) (f : ℚ) :
    ∀ (xs pre suf : List ℚ) (v : Option ℚ),
      pre.length + suf.length = N → xs.length = suf.length → suf ≠ [] →
      ingest N f xs ⟨pre ++ suf, pre.length, v⟩ =
        ⟨pre ++ xs, 0, some ((pre ++ xs).sum / (N : ℚ) / f / 1000)⟩ := by
  intro xs
  induction xs with
  | nil =>
    intro pre suf v h1 h2 h3
    rcases suf with _ | ⟨y, ys⟩
    · exact absurd rfl h3
    · simp at h2
  | cons x xs ih =>
    intro pre suf v h1 h2 h3
    rcases suf with _ | ⟨y, ys⟩
    · exact absurd rfl h3
    · rcases ys with _ | ⟨z, zs⟩
      · have hxs : xs = [] := by
          simp only [List.length_cons, List.length_nil] at h2
          exact List.eq_nil_of_length_eq_zero (by omega)
        subst hxs
        have hcond : pre.length + 1 = N := by
          simp only [List.length_cons, List.length_nil] at h1
          omega
        show ingest N f [] (measureBattery N f x ⟨pre ++ [y], pre.length, v⟩) = _
        simp [ingest, measureBattery, hcond, set_length_append]
      · have hcond : ¬ (pre.length + 1 = N) := by
          simp only [List.length_cons] at h1
          omega
        show ingest N f xs (measureBattery N f x ⟨pre ++ y :: z :: zs, pre.length, v⟩) = _
        rw [show measureBattery N f x ⟨pre ++ y :: z :: zs, pre.length, v⟩ =
              ⟨(pre ++ [x]) ++ z :: zs, (pre ++ [x]).length, v⟩ from by
            simp [measureBattery, hcond, set_length_append]]
        rw [ih (pre ++ [x]) (z :: zs) v (by simp at h1 ⊢; omega)
          (by simp at h2 ⊢; omega) (by simp)]
        simp

/-- `batteryVoltage` changes in a tick only when the write index wraps back
to zero, i.e. on the `N`-th write since the previous flush. -/
theorem measureBattery_flush_only (N : Nat) (f x : ℚ) (s : GaugeState)
    (h : (measureBattery N f x s).batteryVoltage ≠ s.batteryVoltage) :
    s.i + 1 = N ∧ (measureBattery N f x s).i = 0 := by
  by_cases hc : s.i + 1 = N
  · simp [measureBattery, hc]
  · exfalso
    exact h (by simp [measureBattery, hc])

/-- A full constant window flushes to the constant's converted value and
returns the gauge to the start-of-window state. -/
theorem ingest_const_window (N : Nat) (f c : ℚ) (hN : 0 < N)
    (samples : List ℚ) (hlen : samples.length = N) (v : Option ℚ) :
    ingest N f (List.replicate N c) ⟨samples, 0, v⟩ =
      ⟨List.replicate N c, 0, some ((N : ℚ) * c / (N : ℚ) / f / 1000)⟩ := by
  have h := ingest_flush N f (List.replicate N c) [] samples v
    (by simpa using hlen) (by simpa using hlen.symm)
    (by intro hnil; rw [hnil] at hlen; simp at hlen; omega)
  simp only [List.nil_append, List.length_nil] at h
  rw [h, List.sum_replicate, nsmul_eq_mul]

/-- From the start-of-window state of a constant stream, any further
constant input leaves `batteryVoltage` at the constant's converted value. -/
theorem ingest_const_persist (N : Nat) (f c : ℚ) (hN : 0 < N) :
    ∀ m, (ingest N f (List.replicate m c)
        ⟨List.replicate N c, 0,
          some ((N : ℚ) * c / (N : ℚ) / f / 1000)⟩).batteryVoltage =
      some ((N : ℚ) * c / (N : ℚ) / f / 1000) := by
  intro m
  induction m using Nat.strong_induction_on with
  | _ m ih =>
    rcases Nat.lt_or_ge m N with hm | hm
    · have h := ingest_fill N f (List.replicate m c) [] (List.replicate N c)
        (some ((N : ℚ) * c / (N : ℚ) / f / 1000))
        (by simp) (by simpa using hm)
      simp only [List.nil_append, List.length_nil, Nat.zero_add] at h
      rw [h]
    · obtain ⟨m2, rfl⟩ : ∃ m2, m = N + m2 := ⟨m - N, by omega⟩
      rw [List.replicate_add, ingest_append,
        ingest_const_window N f c hN (List.replicate N c) (by simp) _]
      exact ih m2 (by omega)

/-- A constant raw stream into a fresh gauge: `batteryVoltage` is the `NAN`
sentinel for the first `N - 1` ticks and equals `c / f / 1000` from tick `N`
on. -/
theorem gauge_const_voltage (N : Nat) (f c : ℚ) (hN : 0 < N) (k : Nat) :
    (k < N →
      (ingest N f (List.replicate k c) (initGauge N)).batteryVoltage = none) ∧
    (N ≤ k →
      (ingest N f (List.replicate k c) (initGauge N)).batteryVoltage =
        some (c / f / 1000)) := by
  have hNQ : (N : ℚ) ≠ 0 := by
    exact_mod_cast Nat.pos_iff_ne_zero.mp hN
  have hval : (N : ℚ) * c / (N : ℚ) / f / 1000 = c / f / 1000 := by
    rw [mul_div_cancel_left₀ c hNQ]
  constructor
  · intro hk
    have h := ingest_fill N f (List.replicate k c) [] (List.replicate N 0)
      none (by simp) (by simpa using hk)
    simp only [List.nil_append, List.length_nil, Nat.zero_add] at h
    show (ingest N f (List.replicate k c) ⟨List.replicate N 0, 0, none⟩).batteryVoltage = none
    rw [h]
  · intro hk
    obtain ⟨m, rfl⟩ : ∃ m, k = N + m := ⟨k - N, by omega⟩
    show (ingest N f (List.replicate (N + m) c)
      ⟨List.replicate N 0, 0, none⟩).batteryVoltage = some (c / f / 1000)
    rw [List.replicate_add, ingest_append,
      ingest_const_window N f c hN (List.replicate N 0) (by simp) none,
      ← hval]
    exact ingest_const_persist N f c hN m



/-- C1 — counterexample to the claim as stated: it asserts that a press of
stable duration `d ≤ 330` ms fires the short-press callback exactly once; in
the cycle of stable duration exactly 330 ms, after the release tick 335,
neither callback has fired. -/
theorem C1_counterexample :
    (runCycle 330 335).db.shortCount = 0 ∧
    (runCycle 330 335).db.longCount = 0 := by
  obtain ⟨h1, h2⟩ := runCycle_counts 330 (by omega) 335 (by omega)
  constructor
  · rw [h1]; decide
  · rw [h2]; decide

/-- C1 — corrected.  Amended claim, for a clean press/release cycle of
stable duration `d` polled every millisecond: if `d < 330`, the short-press
callback fires exactly once, at the release tick `d + 5`, and the long-press
never fires; if `d ≥ 332` — exactly when some poll observes a stable
duration strictly above 330 ms — the long-press fires exactly once, at tick
336, the moment the threshold is crossed, and the short-press never fires;
if `d = 330` or `d = 331`, neither callback fires; in no cycle do both fire,
and after the release tick the state (hence both counts) never changes
again. -/
theorem C1_cycle_events (d : Nat) (hd : 6 ≤ d) :
    (∀ t, t ≤ d + 5 →
      (runCycle d t).db.shortCount = (if d + 5 ≤ t ∧ d < 330 then 1 else 0) ∧
      (runCycle d t).db.longCount = (if 336 ≤ t ∧ 332 ≤ d then 1 else 0)) ∧
    (∀ t, d + 5 ≤ t → runCycle d t = runCycle d (d + 5)) :=
  ⟨fun t ht => runCycle_counts d hd t ht, fun t ht => runCycle_persist d hd t ht⟩

theorem C1_cycle_events_witness :
    (runCycle 400 405).db.shortCount = 0 ∧
    (runCycle 400 405).db.longCount = 1 := by
  obtain ⟨h1, h2⟩ := (C1_cycle_events 400 (by decide)).1 405 (by decide)
  constructor
  · rw [h1]; decide
  · rw [h2]; decide

/-- C4 — counterexample to the claim as stated: it asserts that at stable
duration exactly 330 ms the short-press callback fires exactly once at
release; in fact its count is still zero after the release tick. -/
theorem C4_counterexample : (runCycle 330 335).db.shortCount = 0 := by
  rw [(runCycle_counts 330 (by omega) 335 (by omega)).1]
  decide

/-- C4 — corrected.  Amended claim: a press of stable duration exactly
330 ms fires NEITHER callback: the long-press indeed requires a strictly
greater duration (`currentDuration() > 330`), but the short-press also
requires a strictly smaller one (`previousDuration() < 330`), so the
boundary press produces no event at all, at any time. -/
theorem C4_boundary_press (t : Nat) :
    (runCycle 330 t).db.shortCount = 0 ∧
    (runCycle 330 t).db.longCount = 0 := by
  rcases Nat.lt_or_ge t 336 with h | h
  · obtain ⟨h1, h2⟩ := runCycle_counts 330 (by omega) t (by omega)
    constructor
    · rw [h1]; simp
    · rw [h2]; simp
  · rw [runCycle_persist 330 (by omega) t (by omega)]
    obtain ⟨h1, h2⟩ := runCycle_counts 330 (by omega) 335 (by omega)
    constructor
    · rw [h1]; decide
    · rw [h2]; decide

/-- End-of-cycle state: one tick after the release tick the button is
quiescent released with the cycle's press duration and events recorded and
the latch clear. -/
theorem cycleFrom_end (a d c₀ b₀ p₀ sc lc : Nat) (hd : 6 ≤ d) :
    cycleFrom a d c₀ b₀ p₀ sc lc (d + 6) =
      ⟨⟨false, a + d, false, a + d + 5, d,
        sc + (if d < 330 then 1 else 0),
        lc + (if 332 ≤ d then 1 else 0)⟩, false⟩ := by
  rw [show d + 6 = (d + 5) + 1 from by omega]
  have h1 : ¬ d + 5 < d := by omega
  have h2 : ¬ d + 5 < 5 := by omega
  have h3 : ¬ d + 5 < d + 5 := by omega
  have h4 : d + 5 ≤ d + 5 ∧ d < 330 ↔ d < 330 := by omega
  have h5 : 336 ≤ d + 5 ∧ 332 ≤ d ↔ 332 ≤ d := by omega
  have h6 : 331 ≤ d ∧ 332 ≤ d ↔ 332 ≤ d := by omega
  simp [cycleFrom, h1, h2, h3, h4, h5, h6]

/-- Two long presses of the same button separated by an idle gap: the
long-press callback fires exactly once in the first cycle and exactly once
more in the second. -/
theorem runBtn_twoPress (d₁ g d₂ : Nat)
    (h1 : 332 ≤ d₁) (hg : 6 ≤ g) (h2 : 332 ≤ d₂) :
    (runBtn 5 (twoPressSig d₁ g d₂) (d₁ + 5)).db.longCount = 1 ∧
    (runBtn 5 (twoPressSig d₁ g d₂) (d₁ + g + d₂ + 5)).db.longCount = 2 := by
  have hd₁ : 6 ≤ d₁ := by omega
  have hd₂ : 6 ≤ d₂ := by omega
  have hsig1 : ∀ t, 0 ≤ t → t ≤ 0 + d₁ + 5 →
      twoPressSig d₁ g d₂ t = decide (t < 0 + d₁) := by
    intro t _ ht
    have hx : ¬ (d₁ + g ≤ t ∧ t < d₁ + g + d₂) := by omega
    simp only [twoPressSig, Nat.zero_add] at ht ⊢
    simp [hx]
  have hphase1 : runFrom 5 (twoPressSig d₁ g d₂) 0 initBtn (d₁ + 6) =
      ⟨⟨false, d₁, false, d₁ + 5, d₁, 0, 1⟩, false⟩ := by
    rw [show (initBtn : Btn) = ⟨⟨false, 0, false, 0, 0, 0, 0⟩, false⟩ from rfl,
      runFrom_cycle 0 d₁ 0 0 0 0 0 (twoPressSig d₁ g d₂) hd₁ hsig1 (d₁ + 6)
        (by omega),
      cycleFrom_end 0 d₁ 0 0 0 0 0 hd₁]
    have hx1 : ¬ d₁ < 330 := by omega
    simp [hx1, h1]
  constructor
  · show (runFrom 5 (twoPressSig d₁ g d₂) 0 initBtn
      (d₁ + 5 + 1)).db.longCount = 1
    rw [show d₁ + 5 + 1 = d₁ + 6 from by omega, hphase1]
  · show (runFrom 5 (twoPressSig d₁ g d₂) 0 initBtn
      (d₁ + g + d₂ + 5 + 1)).db.longCount = 2
    rw [show d₁ + g + d₂ + 5 + 1 = (d₁ + 6) + ((g - 6) + (d₂ + 6)) from
        by omega,
      runFrom_append, hphase1, runFrom_append]
    have hidle : ∀ t, 0 + (d₁ + 6) ≤ t → t < 0 + (d₁ + 6) + (g - 6) →
        twoPressSig d₁ g d₂ t = false := by
      intro t ht1 ht2
      have hx1 : ¬ t < d₁ := by omega
      have hx2 : ¬ (d₁ + g ≤ t ∧ t < d₁ + g + d₂) := by omega
      simp [twoPressSig, hx1, hx2]
    rw [runFrom_idle 5 (twoPressSig d₁ g d₂) (0 + (d₁ + 6))
        ⟨⟨false, d₁, false, d₁ + 5, d₁, 0, 1⟩, false⟩ rfl rfl (g - 6) hidle,
      show 0 + (d₁ + 6) + (g - 6) = d₁ + g from by omega]
    have hsig2 : ∀ t, d₁ + g ≤ t → t ≤ d₁ + g + d₂ + 5 →
        twoPressSig d₁ g d₂ t = decide (t < d₁ + g + d₂) := by
      intro t ht1 ht2
      have hx1 : ¬ t < d₁ := by omega
      have hx2 : d₁ + g ≤ t ∧ t < d₁ + g + d₂ ↔ t < d₁ + g + d₂ := by omega
      simp [twoPressSig, hx1, hx2]
    rw [runFrom_cycle (d₁ + g) d₂ d₁ (d₁ + 5) d₁ 0 1 (twoPressSig d₁ g d₂)
        hd₂ hsig2 (d₂ + 6) (by omega),
      cycleFrom_end (d₁ + g) d₂ d₁ (d₁ + 5) d₁ 0 1 hd₂]
    simp [h2]

/-- C5 — counterexample to the claim as stated: in the firmware run with the
left button raw-pressed during `[0, 500)` ms and the right button during
`[0, 400)` ms (center idle, all three polled every millisecond), the left
button's long-press callback has fired once by tick 337 and TWICE by tick
411, although the left button's debounced state has been continuously
pressed since tick 5 (still pressed, `stableSince = 5`) — a second
long-press within one and the same press/release cycle. -/
theorem C5_counterexample :
    (runMain sigLeft sigRight sigCenter 337).left.longCount = 1 ∧
    (runMain sigLeft sigRight sigCenter 411).left.longCount = 2 ∧
    (runMain sigLeft sigRight sigCenter 411).left.stable = true ∧
    (runMain sigLeft sigRight sigCenter 411).left.stableSince = 5 := by
  refine ⟨?_, ?_, ?_, ?_⟩
  · rw [runMain_closed 337 (by omega)]; decide
  · rw [runMain_closed 411 (by omega)]; decide
  · rw [runMain_closed 411 (by omega)]; decide
  · rw [runMain_closed 411 (by omega)]; decide

/-- C5 — corrected.  Amended claim: in any run in which only the one button
is ever pressed, once the long-press callback has fired, continuing to hold
the button never fires a second long-press in that same cycle (the count
never exceeds one, at any time), and after the button is released and
pressed again a new long-press fires in the new cycle — exactly one per
cycle.  In the firmware's three-button loop, however, the latch is a single
function-static shared by all instances, so another button's release can
reset it mid-press, after which a second long-press fires in the same cycle
(see the counterexample run, fires at ticks 336 and 406). -/
theorem C5_latch_per_run :
    (∀ d, 6 ≤ d → ∀ t, (runCycle d t).db.longCount ≤ 1) ∧
    (∀ d₁ g d₂, 332 ≤ d₁ → 6 ≤ g → 332 ≤ d₂ →
      (runBtn 5 (twoPressSig d₁ g d₂) (d₁ + 5)).db.longCount = 1 ∧
      (runBtn 5 (twoPressSig d₁ g d₂) (d₁ + g + d₂ + 5)).db.longCount = 2) := by
  constructor
  · intro d hd t
    rcases Nat.lt_or_ge t (d + 6) with h | h
    · rw [(runCycle_counts d hd t (by omega)).2]
      split <;> omega
    · rw [runCycle_persist d hd t (by omega),
        (runCycle_counts d hd (d + 5) le_rfl).2]
      split <;> omega
  · exact fun d₁ g d₂ h1 hg h2 => runBtn_twoPress d₁ g d₂ h1 hg h2

theorem C5_latch_per_run_witness :
    (runCycle 400 500).db.longCount ≤ 1 ∧
    (runBtn 5 (twoPressSig 400 20 400) (400 + 20 + 400 + 5)).db.longCount = 2 :=
  ⟨C5_latch_per_run.1 400 (by decide) 500,
   (C5_latch_per_run.2 400 20 400 (by decide) (by decide) (by decide)).2⟩

/-- C2 — counterexample to the claim as stated: the right button's
press/release cycle is NOT independent of the other instances polled in the
same control loop.  In the firmware run with left raw-pressed during
`[0, 500)` ms and right during `[0, 400)` ms, the right button completes a
full stable press of 400 ms (released at tick 405, previous duration 400,
far beyond the 330 ms threshold) with ZERO long-press fires — the shared
latch was already set by the LEFT button — whereas the identical
right-button signal driven through a button polled alone fires its
long-press exactly once. -/
theorem C2_counterexample :
    (runMain sigLeft sigRight sigCenter 411).right.longCount = 0 ∧
    (runMain sigLeft sigRight sigCenter 406).right.prevDur = 400 ∧
    (runMain sigLeft sigRight sigCenter 406).right.stable = false ∧
    (runCycle 400 410).db.longCount = 1 := by
  refine ⟨?_, ?_, ?_, ?_⟩
  · rw [runMain_closed 411 (by omega)]; decide
  · rw [runMain_closed 406 (by omega)]; decide
  · rw [runMain_closed 406 (by omega)]; decide
  · rw [runCycle_persist 400 (by omega) 410 (by omega),
      (runCycle_counts 400 (by omega) 405 (by omega)).2]
    decide

/-- C2 — corrected.  Amended claim: the long-press latch is not private
per-instance state — it is the single function-static `long_press` shared by
every `Button` instance.  In any run in which only the one button is ever
pressed, the claimed invariant does hold for that instance: the latch is
true exactly during `[336, d + 5)`, i.e. only while that instance's stable
state is pressed, set once when the threshold is crossed and reset to false
exactly once per press/release cycle, at the release tick.  With several
buttons pressed in the same control loop the latch is not independent: in
the counterexample run it is set (tick 336) by the left button's long press
and reset (tick 405) by the RIGHT button's release while the left button is
still mid-press (still stably pressed since tick 5). -/
theorem C2_latch_shared_static (d : Nat) (hd : 6 ≤ d) :
    (∀ t, t ≤ d + 5 →
      (runCycle d t).latch = decide (336 ≤ t ∧ t < d + 5) ∧
      ((runCycle d t).latch = true → (runCycle d t).db.stable = true)) ∧
    ((runMain sigLeft sigRight sigCenter 337).latch = true ∧
     (runMain sigLeft sigRight sigCenter 406).latch = false ∧
     (runMain sigLeft sigRight sigCenter 406).left.stable = true ∧
     (runMain sigLeft sigRight sigCenter 406).left.stableSince = 5 ∧
     (runMain sigLeft sigRight sigCenter 406).right.stable = false) := by
  constructor
  · intro t ht
    rw [runCycle_closed d hd t ht]
    refine ⟨?_, ?_⟩
    · simp [cycleFrom]
    · simp only [cycleFrom, decide_eq_true_eq]
      omega
  · refine ⟨?_, ?_, ?_, ?_, ?_⟩
    · rw [runMain_closed 337 (by omega)]; decide
    · rw [runMain_closed 406 (by omega)]; decide
    · rw [runMain_closed 406 (by omega)]; decide
    · rw [runMain_closed 406 (by omega)]; decide
    · rw [runMain_closed 406 (by omega)]; decide

theorem C2_latch_shared_static_witness :
    (runCycle 400 350).latch = true ∧ (runCycle 400 350).db.stable = true := by
  obtain ⟨h1, h2⟩ := (C2_latch_shared_static 400 (by decide)).1 350 (by decide)
  have hl : (runCycle 400 350).latch = true := h1.trans (by decide)
  exact ⟨hl, h2 hl⟩

/-- C3 — confirmed (machine floats idealised as exact rationals).  From any
start-of-window gauge state (write index 0, arbitrary prior reading):
ingesting the first `N - 1` samples of a window leaves `batteryVoltage` at
its prior value; ingesting all `N` updates it to
`mean(samples) / 1000 / factor`; and a single tick can change
`batteryVoltage` only when the write index wraps back to zero on the `N`-th
write. -/
theorem C3_gauge_windowing (N : Nat) (f : ℚ) (s : GaugeState) (xs : List ℚ)
    (hN : 0 < N) (hi : s.i = 0) (hlen : s.samples.length = N)
    (hxs : xs.length = N) :
    (ingest N f (xs.take (N - 1)) s).batteryVoltage = s.batteryVoltage ∧
    (ingest N f xs s).batteryVoltage =
      some (xs.sum / (N : ℚ) / 1000 / f) ∧
    (∀ (x : ℚ) (s2 : GaugeState),
      (measureBattery N f x s2).batteryVoltage ≠ s2.batteryVoltage →
        s2.i + 1 = N ∧ (measureBattery N f x s2).i = 0) := by
  obtain ⟨samples, i, v⟩ := s
  simp only at hi hlen
  subst hi
  refine ⟨?_, ?_, fun x s2 h => measureBattery_flush_only N f x s2 h⟩
  · have h := ingest_fill N f (xs.take (N - 1)) [] samples v
      (by simpa using hlen) (by simp [List.length_take, hxs, hlen]; omega)
    simp only [List.nil_append, List.length_nil, Nat.zero_add] at h
    rw [h]
  · have h := ingest_flush N f xs [] samples v (by simpa using hlen)
      (by rw [hxs, hlen])
      (by intro hnil; rw [hnil] at hlen; simp at hlen; omega)
    simp only [List.nil_append, List.length_nil] at h
    rw [h, div_right_comm]

theorem C3_gauge_windowing_witness :
    (ingest 3 factor (([3000, 3300, 3150] : List ℚ).take 2)
      (initGauge 3)).batteryVoltage = none ∧
    (ingest 3 factor ([3000, 3300, 3150] : List ℚ)
      (initGauge 3)).batteryVoltage =
      some (([3000, 3300, 3150] : List ℚ).sum / (3 : ℚ) / 1000 / factor) := by
  obtain ⟨h1, h2, _⟩ := C3_gauge_windowing 3 factor (initGauge 3)
    [3000, 3300, 3150] (by decide) rfl rfl rfl
  exact ⟨h1, h2⟩

/-- C6 — confirmed (machine floats idealised as exact rationals).  With
`N = 10000` and a constant 3000 mV stream from the initial state,
`batteryVoltage` is still the `NAN` sentinel for every horizon shorter than
10000 ticks, becomes defined after exactly 10000 ticks, and equals
`3.0 / factor` from then on, for as long as the input stays constant. -/
theorem C6_constant_stream (k : Nat) :
    (k < 10000 →
      (ingest 10000 factor (List.replicate k 3000)
        (initGauge 10000)).batteryVoltage = none) ∧
    (10000 ≤ k →
      (ingest 10000 factor (List.replicate k 3000)
        (initGauge 10000)).batteryVoltage = some (3 / factor)) := by
  obtain ⟨h1, h2⟩ := gauge_const_voltage 10000 factor 3000 (by omega) k
  refine ⟨h1, fun hk => ?_⟩
  rw [h2 hk, div_right_comm]
  norm_num

theorem C6_constant_stream_witness :
    (ingest 10000 factor (List.replicate 9999 3000)
      (initGauge 10000)).batteryVoltage = none ∧
    (ingest 10000 factor (List.replicate 10000 3000)
      (initGauge 10000)).batteryVoltage = some (3 / factor) :=
  ⟨(C6_constant_stream 9999).1 (by decide),
   (C6_constant_stream 10000).2 (by decide)⟩

/-- C8 — confirmed.  `batteryVoltage` is initialised to the `NAN` sentinel
and is still the sentinel after any run of fewer than `N` ingest ticks,
whatever the sample values — in particular it stays undefined indefinitely
when the per-tick ingest is never driven (`xs = []`).  All gauge operations
of the embedding are total functions returning a state: the undefined
reading is observable only through the sentinel value, never through an
exception or error signal. -/
theorem C8_nan_until_first_window (N : Nat) (f : ℚ) (hN : 0 < N) :
    (initGauge N).batteryVoltage = none ∧
    (∀ xs : List ℚ, xs.length < N →
      (ingest N f xs (initGauge N)).batteryVoltage = none) := by
  refine ⟨rfl, fun xs hxs => ?_⟩
  have h := ingest_fill N f xs [] (List.replicate N 0) none
    (by simp) (by simpa using hxs)
  simp only [List.nil_append, List.length_nil, Nat.zero_add] at h
  show (ingest N f xs ⟨List.replicate N 0, 0, none⟩).batteryVoltage = none
  rw [h]

theorem C8_nan_until_first_window_witness :
    (ingest 3 factor [1, 2] (initGauge 3)).batteryVoltage = none :=
  (C8_nan_until_first_window 3 factor (by decide)).2 [1, 2] (by decide)

/-- C9 — confirmed.  The volume callbacks perform unsigned 8-bit wraparound
arithmetic: for an 8-bit current volume `cur`, `increaseVolume` stores
`(cur + 4) % 256`, so every `cur ≥ 252` wraps to the small value
`cur - 252 ≤ 3`; `decreaseVolume` stores `(cur - 4) % 256` (`%` the
mathematical, nonnegative remainder), so every `cur < 4` wraps to the large
value `cur + 252 ≥ 252`. -/
theorem C9_volume_wraparound (cur : Int) (h0 : 0 ≤ cur) (h1 : cur < 256) :
    increaseVolume cur = (cur + 4) % 256 ∧
    (252 ≤ cur → increaseVolume cur = cur - 252) ∧
    decreaseVolume cur = (cur - 4) % 256 ∧
    (cur < 4 → decreaseVolume cur = cur + 252) := by
  unfold increaseVolume decreaseVolume
  refine ⟨?_, fun h => ?_, ?_, fun h => ?_⟩ <;> omega

theorem C9_volume_wraparound_witness :
    increaseVolume 255 = (255 + 4) % 256 ∧ increaseVolume 255 = 3 ∧
    decreaseVolume 0 = (0 - 4) % 256 ∧ decreaseVolume 0 = 252 := by
  obtain ⟨a1, a2, _, _⟩ := C9_volume_wraparound 255 (by decide) (by decide)
  obtain ⟨_, _, b3, b4⟩ := C9_volume_wraparound 0 (by decide) (by decide)
  exact ⟨a1, (a2 (by decide)).trans (by decide), b3,
    (b4 (by decide)).trans (by decide)⟩

/-- C10 — confirmed.  Each `metadataCallback` invocation modifies at most
one field of the shared record, selected by the attribute id — title (1),
artist (2), album (4) or playtime (64) — and leaves every other field
unchanged; for every id outside these four the entire record is
unchanged. -/
theorem C10_metadata_frame (id : Nat) (data : String) (m : Meta) :
    (metadataCallback id data m).playing = m.playing ∧
    (metadataCallback id data m).position = m.position ∧
    (metadataCallback id data m).volume = m.volume ∧
    (id ≠ ESP_AVRC_MD_ATTR_TITLE →
      (metadataCallback id data m).title = m.title) ∧
    (id ≠ ESP_AVRC_MD_ATTR_ARTIST →
      (metadataCallback id data m).artist = m.artist) ∧
    (id ≠ ESP_AVRC_MD_ATTR_ALBUM →
      (metadataCallback id data m).album = m.album) ∧
    (id ≠ ESP_AVRC_MD_ATTR_PLAYING_TIME →
      (metadataCallback id data m).playtime = m.playtime) ∧
    (id ≠ ESP_AVRC_MD_ATTR_TITLE → id ≠ ESP_AVRC_MD_ATTR_ARTIST →
      id ≠ ESP_AVRC_MD_ATTR_ALBUM → id ≠ ESP_AVRC_MD_ATTR_PLAYING_TIME →
      metadataCallback id data m = m) := by
  unfold metadataCallback
  split_ifs with h1 h2 h3 h4 <;> simp_all

theorem C10_metadata_frame_witness :
    metadataCallback 3 ("x") ⟨0, ("t"), ("a"), ("b"), 7, 8, 9⟩ =
      ⟨0, ("t"), ("a"), ("b"), 7, 8, 9⟩ := by
  exact (C10_metadata_frame 3 ("x") ⟨0, ("t"), ("a"), ("b"), 7, 8, 9⟩).2.2.2.2.2.2.2
    (by decide) (by decide) (by decide) (by decide)


end Speaker
